import Mathlib

/-!
Verification development for the chunked voxel-mesh buffer generator
(src/Editor/src/renderer/buffer_voxel_mesh.ts, class BufferGenerator_VoxelMesh).

Embedding conventions:
- Float32Array cells are modelled as exact rationals; Uint32Array stores
  reduce modulo 2 ^ 32.
- A typed array is a size together with a total read function; the embedded
  code never reads a cell it has not written or zero-initialised.
- External collaborators that are not part of src/ (the geometry template,
  the occlusion calculator, the chunk-size configuration constant, the
  AppConstants offsets, OtS_Util.Array.repeatedFill and the voxel-mesh /
  neighbourhood interfaces) are modelled from the spec, as noted on each
  definition.
- Exceptions are modelled by Option: a call that would throw (a failed
  ots-core ASSERT, or the RangeError of a TypedArray.set whose source does
  not fit the target, made explicit in the checked body fromVoxelMeshE)
  returns none and performs no state change, matching the source, where the
  throw happens before any mutation of the builder.
-/

namespace OtS

namespace AppConstants

/-- Modelled from the spec: AppConstants.VoxelMeshBufferComponentOffsets.POSITION
(external ots-core constant), per-voxel float count of the position buffer,
24 vertices times 3 components. -/
def POSITION : ℕ := 72

/-- Modelled from the spec: AppConstants.VoxelMeshBufferComponentOffsets.COLOUR,
24 vertices times 4 components. -/
def COLOUR : ℕ := 96

/-- Modelled from the spec: AppConstants.VoxelMeshBufferComponentOffsets.OCCLUSION,
24 vertices times 4 components. -/
def OCCLUSION : ℕ := 96

/-- Modelled from the spec: AppConstants.VoxelMeshBufferComponentOffsets.TEXCOORD,
24 vertices times 2 components. -/
def TEXCOORD : ℕ := 48

/-- Modelled from the spec: AppConstants.VoxelMeshBufferComponentOffsets.NORMAL,
24 vertices times 3 components. -/
def NORMAL : ℕ := 72

/-- Modelled from the spec: AppConstants.VoxelMeshBufferComponentOffsets.INDICES,
36 index entries per voxel (12 triangles). -/
def INDICES : ℕ := 36

/-- Modelled from the spec: AppConstants.INDICES_PER_VOXEL, the 24-vertex block
size by which per-voxel indices are offset. -/
def INDICES_PER_VOXEL : ℕ := 24

end AppConstants

/-- A JS typed array (Float32Array / Uint32Array): a length plus a total read
function on cell indices. -/
structure ModArray (α : Type) where
  size : ℕ
  get : ℕ → α

/-- Writing one cell of a typed array. -/
def arraySet {α : Type} (a : ℕ → α) (i : ℕ) (v : α) : ℕ → α :=
  fun t => if t = i then v else a t

/-- A contiguous run of writes: cell `base + j` receives `g j` for
`j = 0, …, n-1`, in that order.  This models both an inner `for` loop writing
consecutive cells and `TypedArray.set(src, base)`. -/
def writeRow {α : Type} (a : ℕ → α) (base n : ℕ) (g : ℕ → α) : ℕ → α :=
  (List.range n).foldl (fun acc j => arraySet acc (base + j) (g j)) a

/-- Modelled from the spec: OtS_Util.Array.repeatedFill (external ots-core
helper).  Replicates the block `[offset, offset + length)` so that it fills
`count` consecutive copies in total, leaving everything else unchanged
("write once, then replicate across every slot"). -/
def repeatedFill {α : Type} (a : ℕ → α) (offset length count : ℕ) : ℕ → α :=
  fun t =>
    if offset ≤ t ∧ t < offset + length * count then a (offset + (t - offset) % length)
    else a t

/-- The 3-component vector of ots-core (float components modelled as ℚ). -/
structure Vector3 where
  x : ℚ
  y : ℚ
  z : ℚ

/-- Vector3.prototype.toArray: the vector as the array [x, y, z]. -/
def Vector3.toArray (v : Vector3) : ℕ → ℚ :=
  fun j => if j = 0 then v.x else if j = 1 then v.y else v.z

/-- An RGBA colour (normalised float channels modelled as ℚ). -/
structure RGBA where
  r : ℚ
  g : ℚ
  b : ℚ
  a : ℚ

/-- Component `k` of an RGBA colour, in channel order r, g, b, a. -/
def rgbaComp (c : RGBA) : ℕ → ℚ :=
  fun k => if k = 0 then c.r else if k = 1 then c.g else if k = 2 then c.b else c.a

/-- Modelled from the spec: OtS_Voxel, a position plus an RGBA colour. -/
structure OtS_Voxel where
  position : Vector3
  colour : RGBA

/-- Modelled from the spec: OtS_VoxelMesh, an ordered finite collection of
voxels with a stable iteration order. -/
structure OtS_VoxelMesh where
  voxels : List OtS_Voxel

/-- Modelled from the spec: getVoxels() yields the voxels of the mesh in their
stable iteration order. -/
def OtS_VoxelMesh.getVoxels (m : OtS_VoxelMesh) : List OtS_Voxel :=
  m.voxels

/-- Modelled from the spec: getVoxelCount() is the total voxel count of the
ordered collection. -/
def OtS_VoxelMesh.getVoxelCount (m : OtS_VoxelMesh) : ℕ :=
  m.voxels.length

/-- Modelled from the spec: OtS_VoxelMesh_Neighbourhood, a precomputed
adjacency index determined by the voxel model it was processed from and the
adjacency mode; treated as a free datum, queried only through the abstract
occlusion calculator. -/
structure OtS_VoxelMesh_Neighbourhood where
  source : OtS_VoxelMesh
  mode : String

/-- Modelled from the spec: processing a neighbourhood index over a full voxel
model with the given adjacency mode. -/
def OtS_VoxelMesh_Neighbourhood.process (m : OtS_VoxelMesh) (mode : String) :
    OtS_VoxelMesh_Neighbourhood :=
  { source := m, mode := mode }

/-- Placeholder voxel; `voxelAt` is only ever applied in bounds by the
embedded code on the inputs the theorems cover. -/
def defaultVoxel : OtS_Voxel :=
  { position := { x := 0, y := 0, z := 0 }, colour := { r := 0, g := 0, b := 0, a := 0 } }

/-- JS array read `voxels[i]`. -/
def voxelAt (voxels : List OtS_Voxel) (i : ℕ) : OtS_Voxel :=
  voxels.getD i defaultVoxel

/-- One named attribute of TVoxelMeshBuffer: a component count plus its dense
typed array. -/
structure AttrBuf (α : Type) where
  numComponents : ℕ
  data : ModArray α

/-- TVoxelMeshBuffer of the source: six dense attribute arrays. -/
structure TVoxelMeshBuffer where
  position : AttrBuf ℚ
  colour : AttrBuf ℚ
  occlusion : AttrBuf ℚ
  texcoord : AttrBuf ℚ
  normal : AttrBuf ℚ
  indices : AttrBuf ℕ

/-- TVoxelMeshBufferDescription of the source. -/
structure TVoxelMeshBufferDescription where
  buffer : TVoxelMeshBuffer
  numElements : ℕ

/-- TBuffer_VoxelMesh of the source: a buffer description plus the
continuation flag and a progress fraction. -/
structure TBuffer_VoxelMesh extends TVoxelMeshBufferDescription where
  moreVoxelsToBuffer : Bool
  progress : ℚ

/-- Modelled from the spec: GeometryTemplates.getBoxBufferData(origin), the
constant canonical cube template (external): 24 x 3 positions, 24 x 3
normals, 24 x 2 texcoords and 36 indices with values 0-23.  The fields are
read functions over the flat component arrays. -/
structure AttributeData where
  position : ℕ → ℚ
  normal : ℕ → ℚ
  texcoord : ℕ → ℚ
  indices : ℕ → ℕ

/-- Modelled from the spec: the 36 template indices take values 0-23
(they address the 24 vertices of one cube). -/
def WFTemplate (t : AttributeData) : Prop :=
  ∀ c, c < 36 → t.indices c < 24

/-- The external constants and pure functions the generator calls into:
the cube template, the occlusion calculator
OtSE_AmbientOcclusion.GetOcclusions (as the 96-component output array for a
voxel position and a neighbourhood), and the configuration constant
AppConfig.Get.VOXEL_BUFFER_CHUNK_SIZE.  Modelled from the spec: all three are
external to src/ and constant over a run. -/
structure Env where
  cube : AttributeData
  getOcclusions : Vector3 → OtS_VoxelMesh_Neighbourhood → ℕ → ℚ
  chunkSize : ℕ

/-- BufferGenerator_VoxelMesh.createVoxelMeshBuffer: freshly allocated,
exactly sized attribute arrays; Float32Array/Uint32Array are zero-initialised
and the occlusion array is then filled with 1.0. -/
def createVoxelMeshBuffer (numVoxels : ℕ) : TVoxelMeshBuffer :=
  { position :=
      { numComponents := 3,
        data := { size := numVoxels * AppConstants.POSITION, get := fun _ => 0 } },
    colour :=
      { numComponents := 4,
        data := { size := numVoxels * AppConstants.COLOUR, get := fun _ => 0 } },
    occlusion :=
      { numComponents := 4,
        data := { size := numVoxels * AppConstants.OCCLUSION, get := fun _ => 1 } },
    texcoord :=
      { numComponents := 2,
        data := { size := numVoxels * AppConstants.TEXCOORD, get := fun _ => 0 } },
    normal :=
      { numComponents := 3,
        data := { size := numVoxels * AppConstants.NORMAL, get := fun _ => 0 } },
    indices :=
      { numComponents := 3,
        data := { size := numVoxels * AppConstants.INDICES, get := fun _ => 0 } } }

/-- The position-buffer loop of _fromVoxelMesh: for each local voxel `i` and
each component `j < POSITION`, cell `i * POSITION + j` receives
`cube.position[j] + voxel.position.toArray[j % 3]`, the voxel being
`voxels[i + startIdx]`. -/
def buildPositionData (cube : AttributeData) (voxels : List OtS_Voxel)
    (startIdx count : ℕ) (a : ℕ → ℚ) : ℕ → ℚ :=
  (List.range count).foldl
    (fun acc i =>
      writeRow acc (i * AppConstants.POSITION) AppConstants.POSITION
        (fun j => cube.position j + (voxelAt voxels (i + startIdx)).position.toArray (j % 3)))
    a

/-- The colour-buffer loop of _fromVoxelMesh: for each local voxel `i`, the
four channels of `voxels[i + startIdx].colour` are written at
`i * 96 + 0 … 3` and then replicated over the 24 vertices by
`repeatedFill(colour.data, i * 96, 4, 24)`. -/
def buildColourData (voxels : List OtS_Voxel) (startIdx count : ℕ)
    (a : ℕ → ℚ) : ℕ → ℚ :=
  (List.range count).foldl
    (fun acc i =>
      repeatedFill
        (arraySet
          (arraySet
            (arraySet
              (arraySet acc (i * 96 + 0) (voxelAt voxels (i + startIdx)).colour.r)
              (i * 96 + 1) (voxelAt voxels (i + startIdx)).colour.g)
            (i * 96 + 2) (voxelAt voxels (i + startIdx)).colour.b)
          (i * 96 + 3) (voxelAt voxels (i + startIdx)).colour.a)
        (i * 96) 4 24)
    a

/-- The normal-buffer block of _fromVoxelMesh: the 72 template normal
components are copied to offset 0 by `normal.data.set(cube.normal, 0)` and
then replicated over every voxel slot by
`repeatedFill(normal.data, 0, 72, count)`.  This unchecked build gives the
cell-level effect of the copy only; the ECMAScript bounds check of
`TypedArray.set`, which throws a RangeError exactly when the 72 components
do not fit the allocated buffer (i.e. only for a zero-voxel chunk), is
modelled by `typedArraySet` inside `fromVoxelMeshE`, and `fromVoxelMeshE_eq`
proves the two models agree for every positive chunk size. -/
def buildNormalData (cube : AttributeData) (count : ℕ) (a : ℕ → ℚ) : ℕ → ℚ :=
  repeatedFill (writeRow a 0 72 cube.normal) 0 72 count

/-- The texcoord-buffer block of _fromVoxelMesh: the 48 template texcoord
components are copied to offset 0 and replicated by
`repeatedFill(texcoord.data, 0, 48, count)`.  As with the normal block, the
bounds check of `TypedArray.set` (RangeError on a zero-voxel chunk) lives in
`typedArraySet` / `fromVoxelMeshE`; this unchecked build is exact whenever
the chunk has at least one voxel. -/
def buildTexcoordData (cube : AttributeData) (count : ℕ) (a : ℕ → ℚ) : ℕ → ℚ :=
  repeatedFill (writeRow a 0 48 cube.texcoord) 0 48 count

/-- The indices-buffer loop of _fromVoxelMesh: cell `i * INDICES + j`
receives `cube.indices[j] + i * INDICES_PER_VOXEL`; the store into the
Uint32Array reduces modulo 2 ^ 32. -/
def buildIndicesData (cube : AttributeData) (count : ℕ) (a : ℕ → ℕ) : ℕ → ℕ :=
  (List.range count).foldl
    (fun acc i =>
      writeRow acc (i * AppConstants.INDICES) AppConstants.INDICES
        (fun j => (cube.indices j + i * AppConstants.INDICES_PER_VOXEL) % 2 ^ 32))
    a

/-- The occlusion-buffer loop of _fromVoxelMesh (enabled case): for each local
voxel `i`, GetOcclusions fills a fresh 96-float array for the voxel position
and the stored neighbourhood, which `occlusion.data.set(…, i * OCCLUSION)`
copies into the voxel slot. -/
def buildOcclusionData (getOcclusions : Vector3 → OtS_VoxelMesh_Neighbourhood → ℕ → ℚ)
    (nbh : OtS_VoxelMesh_Neighbourhood) (voxels : List OtS_Voxel)
    (startIdx count : ℕ) (a : ℕ → ℚ) : ℕ → ℚ :=
  (List.range count).foldl
    (fun acc i =>
      writeRow acc (i * AppConstants.OCCLUSION) 96
        (fun j => getOcclusions (voxelAt voxels (i + startIdx)).position nbh j))
    a

/-- The construction-time fields of BufferGenerator_VoxelMesh that later chunk
production reads: the voxel snapshot, the occlusion flag, the recorded total
voxel count and the optional neighbourhood.  (The cursor and the cache, which
getNext mutates, live in `Builder`.) -/
structure BuilderCore where
  voxelMesh : OtS_VoxelMesh
  voxels : List OtS_Voxel
  createAmbientOcclusionBuffer : Bool
  numTotalVoxels : ℕ
  neighbourhood : Option OtS_VoxelMesh_Neighbourhood

/-- The full mutable state of a BufferGenerator_VoxelMesh instance. -/
structure Builder where
  core : BuilderCore
  nextChunkIndex : ℕ
  cache : ℕ → Option TBuffer_VoxelMesh

/-- The constructor of BufferGenerator_VoxelMesh: snapshots the voxels
(Array.from(voxelMesh.getVoxels())), records the total count, starts the
cursor at 0 with an empty cache, and eagerly processes the neighbourhood
(non-cardinal mode) iff the occlusion buffer was requested. -/
def mkBuilder (voxelMesh : OtS_VoxelMesh) (createAmbientOcclusionBuffer : Bool) : Builder :=
  { core :=
      { voxelMesh := voxelMesh,
        voxels := voxelMesh.getVoxels,
        createAmbientOcclusionBuffer := createAmbientOcclusionBuffer,
        numTotalVoxels := voxelMesh.getVoxelCount,
        neighbourhood :=
          if createAmbientOcclusionBuffer then
            some (OtS_VoxelMesh_Neighbourhood.process voxelMesh ("non-cardinal"))
          else none },
    nextChunkIndex := 0,
    cache := fun _ => none }

/-- The successful body of _fromVoxelMesh (everything after the ASSERT): the
chunk produced for a given chunk index.  The inner `match` mirrors the
`ASSERT(this._neighbourhood !== null)` of the source: in every state the
class can reach with the occlusion flag set, the neighbourhood is present. -/
def chunkResult (env : Env) (c : BuilderCore) (chunkIndex : ℕ) : TBuffer_VoxelMesh :=
  let voxelsStartIndex := chunkIndex * env.chunkSize
  let voxelsEndIndex := min ((chunkIndex + 1) * env.chunkSize) c.numTotalVoxels
  let numBufferVoxels := voxelsEndIndex - voxelsStartIndex
  let newBuffer := createVoxelMeshBuffer numBufferVoxels
  let builtBuffer : TVoxelMeshBuffer :=
    { position :=
        { newBuffer.position with
          data :=
            { newBuffer.position.data with
              get := buildPositionData env.cube c.voxels voxelsStartIndex numBufferVoxels
                newBuffer.position.data.get } },
      colour :=
        { newBuffer.colour with
          data :=
            { newBuffer.colour.data with
              get := buildColourData c.voxels voxelsStartIndex numBufferVoxels
                newBuffer.colour.data.get } },
      occlusion :=
        if c.createAmbientOcclusionBuffer then
          (match c.neighbourhood with
            | some nbh =>
              { newBuffer.occlusion with
                data :=
                  { newBuffer.occlusion.data with
                    get := buildOcclusionData env.getOcclusions nbh c.voxels
                      voxelsStartIndex numBufferVoxels newBuffer.occlusion.data.get } }
            | none => newBuffer.occlusion)
        else newBuffer.occlusion,
      texcoord :=
        { newBuffer.texcoord with
          data :=
            { newBuffer.texcoord.data with
              get := buildTexcoordData env.cube numBufferVoxels newBuffer.texcoord.data.get } },
      normal :=
        { newBuffer.normal with
          data :=
            { newBuffer.normal.data with
              get := buildNormalData env.cube numBufferVoxels newBuffer.normal.data.get } },
      indices :=
        { newBuffer.indices with
          data :=
            { newBuffer.indices.data with
              get := buildIndicesData env.cube numBufferVoxels newBuffer.indices.data.get } } }
  { buffer := builtBuffer,
    numElements := builtBuffer.indices.data.size,
    moreVoxelsToBuffer := voxelsEndIndex != c.numTotalVoxels,
    progress := (voxelsStartIndex : ℚ) / (c.numTotalVoxels : ℚ) }

/-- BufferGenerator_VoxelMesh._fromVoxelMesh: computes the chunk slice and
asserts `voxelsStartIndex < this._numTotalVoxels`; a failed ASSERT throws,
modelled as none.  This variant collapses the `TypedArray.set` bounds
checks of the normal/texcoord template copies, which cannot fire when the
chunk has at least one voxel; the exact fallible body is `fromVoxelMeshE`,
which agrees with this one for every positive chunk size
(`fromVoxelMeshE_eq`). -/
def fromVoxelMesh (env : Env) (c : BuilderCore) (chunkIndex : ℕ) : Option TBuffer_VoxelMesh :=
  let voxelsStartIndex := chunkIndex * env.chunkSize
  if voxelsStartIndex < c.numTotalVoxels then some (chunkResult env c chunkIndex) else none

/-- BufferGenerator_VoxelMesh.getNext: produce the chunk at the cursor, store
it in the cache, advance the cursor, and return it.  When _fromVoxelMesh
throws, the exception propagates before the cache insert and the cursor
increment, so the state is unchanged (none). -/
def getNext (env : Env) (b : Builder) : Option (TBuffer_VoxelMesh × Builder) :=
  match fromVoxelMesh env b.core b.nextChunkIndex with
  | none => none
  | some buffer =>
    some (buffer,
      { b with
        cache := fun index => if index = b.nextChunkIndex then some buffer else b.cache index,
        nextChunkIndex := b.nextChunkIndex + 1 })

/-- BufferGenerator_VoxelMesh.getFromIndex: a pure cache lookup. -/
def getFromIndex (b : Builder) (index : ℕ) : Option TBuffer_VoxelMesh :=
  b.cache index

/-- `runN env n b` performs `n` successive getNext calls, collecting the
returned chunks; it is none as soon as one call throws. -/
def runN (env : Env) : ℕ → Builder → Option (List TBuffer_VoxelMesh × Builder)
  | 0, b => some ([], b)
  | n + 1, b =>
    match getNext env b with
    | none => none
    | some (ch, b2) =>
      match runN env n b2 with
      | none => none
      | some (cs, b3) => some (ch :: cs, b3)

/-- An external event against a live builder: either a produce-next call or a
mutation of the source voxel mesh (the chunk-size configuration is a constant
and cannot change, per the spec). -/
inductive Ev
  | produceNext : Ev
  | mutateMesh : OtS_VoxelMesh → Ev

/-- Whether an event is a produce-next call. -/
def Ev.isProduceNext : Ev → Bool
  | .produceNext => true
  | .mutateMesh _ => false

/-- A world: the live source mesh next to the builder that was constructed
from it. -/
structure World where
  mesh : OtS_VoxelMesh
  builder : Builder

/-- One event step.  A produce-next call that throws leaves the world
unchanged and yields no chunk; a mesh mutation replaces the live mesh and
yields no chunk. -/
def stepW (env : Env) (w : World) : Ev → World × Option TBuffer_VoxelMesh
  | .produceNext =>
    match getNext env w.builder with
    | none => (w, none)
    | some (ch, b2) => ({ w with builder := b2 }, some ch)
  | .mutateMesh m => ({ w with mesh := m }, none)

/-- Running a list of events from a world, collecting the per-event chunk
outputs. -/
def runW (env : Env) : World → List Ev → World × List (Option TBuffer_VoxelMesh)
  | w, [] => (w, [])
  | w, e :: es =>
    match stepW env w e with
    | (w2, r) =>
      match runW env w2 es with
      | (w3, rs) => (w3, r :: rs)

/-- The chunks a run of events actually produced, in order. -/
def producedChunks (env : Env) (w : World) (es : List Ev) : List TBuffer_VoxelMesh :=
  ((runW env w es).2).filterMap id

/-- TypedArray.prototype.set with its ECMAScript bounds check: copying `len`
source entries at `offset` writes them iff `offset + len` fits the target
length; otherwise a RangeError is thrown, modelled as none. -/
def typedArraySet {α : Type} (target : ModArray α) (src : ℕ → α) (offset len : ℕ) :
    Option (ModArray α) :=
  if offset + len ≤ target.size then
    some { target with get := writeRow target.get offset len src }
  else none

/-- _fromVoxelMesh with every fallible operation explicit: the ASSERT guard
plus the two `TypedArray.set` bounds checks of the normal and texcoord
template copies, in source order.  The position, colour and indices loops
use per-cell indexed stores, which never throw in JS, and the occlusion set
at offset i · 96 always fits because i < numBufferVoxels, so these two
checks are the only other failure points of the body; they fire exactly
when the chunk has zero voxels, which happens only under a zero configured
chunk size.  On success the chunk content is the already-embedded
`chunkResult`; `fromVoxelMeshE_eq` proves this model agrees with
`fromVoxelMesh` for every positive chunk size. -/
def fromVoxelMeshE (env : Env) (c : BuilderCore) (chunkIndex : ℕ) :
    Option TBuffer_VoxelMesh :=
  let voxelsStartIndex := chunkIndex * env.chunkSize
  let voxelsEndIndex := min ((chunkIndex + 1) * env.chunkSize) c.numTotalVoxels
  if voxelsStartIndex < c.numTotalVoxels then
    let numBufferVoxels := voxelsEndIndex - voxelsStartIndex
    let newBuffer := createVoxelMeshBuffer numBufferVoxels
    match typedArraySet newBuffer.normal.data env.cube.normal 0 72 with
    | none => none
    | some _ =>
      match typedArraySet newBuffer.texcoord.data env.cube.texcoord 0 48 with
      | none => none
      | some _ => some (chunkResult env c chunkIndex)
  else none

/-- getNext over the exact fallible chunk body: a thrown RangeError, exactly
like a failed ASSERT, propagates before the cache insert and the cursor
increment, leaving the builder unchanged. -/
def getNextE (env : Env) (b : Builder) : Option (TBuffer_VoxelMesh × Builder) :=
  match fromVoxelMeshE env b.core b.nextChunkIndex with
  | none => none
  | some buffer =>
    some (buffer,
      { b with
        cache := fun index => if index = b.nextChunkIndex then some buffer else b.cache index,
        nextChunkIndex := b.nextChunkIndex + 1 })

/-- A concrete cube template with distinguishable component values, used to
evaluate the theorems on closed inputs; its indices satisfy `WFTemplate`. -/
def cubeT : AttributeData :=
  { position := fun c => (c : ℚ),
    normal := fun c => (c : ℚ) + 1,
    texcoord := fun c => (c : ℚ) / 2,
    indices := fun c => c % 24 }

/-- A concrete environment with chunk size 2 and a position-dependent
occlusion calculator. -/
def envT : Env :=
  { cube := cubeT,
    getOcclusions := fun v _ j => v.x + (j : ℚ),
    chunkSize := 2 }

/-- A concrete environment whose configured chunk size is zero. -/
def envZero : Env :=
  { cube := cubeT, getOcclusions := fun v _ j => v.x + (j : ℚ), chunkSize := 0 }

/-- A concrete voxel family with distinguishable positions and colours. -/
def voxelT (n : ℕ) : OtS_Voxel :=
  { position := { x := (n : ℚ), y := (n : ℚ) + 1, z := (n : ℚ) + 2 },
    colour := { r := (n : ℚ), g := (n : ℚ) + 1, b := (n : ℚ) + 2, a := (n : ℚ) + 3 } }

/-- A concrete three-voxel mesh. -/
def meshT : OtS_VoxelMesh :=
  { voxels := [voxelT 0, voxelT 1, voxelT 2] }

/-- The empty mesh. -/
def meshEmpty : OtS_VoxelMesh :=
  { voxels := [] }

/-- A concrete one-voxel mesh. -/
def meshOne : OtS_VoxelMesh :=
  { voxels := [voxelT 5] }

theorem arraySet_get_eq {α : Type} (a : ℕ → α) (i : ℕ) (v : α) :
    arraySet a i v i = v := by
  simp [arraySet]

theorem arraySet_get_ne {α : Type} (a : ℕ → α) (i : ℕ) (v : α) (t : ℕ) (h : t ≠ i) :
    arraySet a i v t = a t := by
  simp [arraySet, h]

theorem writeRow_succ {α : Type} (a : ℕ → α) (base n : ℕ) (g : ℕ → α) :
    writeRow a base (n + 1) g = arraySet (writeRow a base n g) (base + n) (g n) := by
  unfold writeRow
  rw [List.range_succ, List.foldl_append]
  rfl

theorem writeRow_get_in {α : Type} (a : ℕ → α) (base n : ℕ) (g : ℕ → α) (j : ℕ)
    (hj : j < n) : writeRow a base n g (base + j) = g j := by
  induction n with
  | zero => omega
  | succ n ih =>
    rw [writeRow_succ]
    rcases Nat.lt_succ_iff_lt_or_eq.mp hj with h | h
    · rw [arraySet_get_ne _ _ _ _ (by omega)]
      exact ih h
    · subst h
      exact arraySet_get_eq _ _ _

theorem writeRow_get_out {α : Type} (a : ℕ → α) (base n : ℕ) (g : ℕ → α) (t : ℕ)
    (ht : t < base ∨ base + n ≤ t) : writeRow a base n g t = a t := by
  induction n with
  | zero => rfl
  | succ n ih =>
    rw [writeRow_succ, arraySet_get_ne _ _ _ _ (by omega)]
    exact ih (by omega)

theorem repeatedFill_get_in {α : Type} (a : ℕ → α) (offset len cnt t : ℕ)
    (h1 : offset ≤ t) (h2 : t < offset + len * cnt) :
    repeatedFill a offset len cnt t = a (offset + (t - offset) % len) := by
  unfold repeatedFill
  rw [if_pos ⟨h1, h2⟩]

theorem repeatedFill_get_out {α : Type} (a : ℕ → α) (offset len cnt t : ℕ)
    (h : ¬(offset ≤ t ∧ t < offset + len * cnt)) :
    repeatedFill a offset len cnt t = a t := by
  unfold repeatedFill
  rw [if_neg h]

theorem foldl_writeRow_get {α : Type} (P : ℕ) (g : ℕ → ℕ → α) :
    ∀ (m : ℕ) (a : ℕ → α) (i j : ℕ), i < m → j < P →
      ((List.range m).foldl (fun acc i2 => writeRow acc (i2 * P) P (g i2)) a) (i * P + j)
        = g i j := by
  intro m
  induction m with
  | zero => intro a i j hi _; omega
  | succ m ih =>
    intro a i j hi hj
    rw [List.range_succ, List.foldl_append]
    simp only [List.foldl_cons, List.foldl_nil]
    rcases Nat.lt_succ_iff_lt_or_eq.mp hi with h | h
    · have h1 : (i + 1) * P ≤ m * P := Nat.mul_le_mul_right P h
      have h2 : (i + 1) * P = i * P + P := by ring
      rw [writeRow_get_out _ _ _ _ _ (Or.inl (by omega))]
      exact ih a i j h hj
    · subst h
      exact writeRow_get_in _ _ _ _ j hj

theorem buildPositionData_get (cube : AttributeData) (voxels : List OtS_Voxel)
    (startIdx : ℕ) (m : ℕ) (a : ℕ → ℚ) (i j : ℕ) (hi : i < m) (hj : j < 72) :
    buildPositionData cube voxels startIdx m a (i * 72 + j)
      = cube.position j + (voxelAt voxels (i + startIdx)).position.toArray (j % 3) := by
  unfold buildPositionData
  simp only [AppConstants.POSITION]
  exact foldl_writeRow_get 72
    (fun i2 j2 => cube.position j2 + (voxelAt voxels (i2 + startIdx)).position.toArray (j2 % 3))
    m a i j hi hj

theorem buildIndicesData_get (cube : AttributeData) (m : ℕ) (a : ℕ → ℕ) (i j : ℕ)
    (hi : i < m) (hj : j < 36) :
    buildIndicesData cube m a (i * 36 + j) = (cube.indices j + i * 24) % 2 ^ 32 := by
  unfold buildIndicesData
  simp only [AppConstants.INDICES, AppConstants.INDICES_PER_VOXEL]
  exact foldl_writeRow_get 36 (fun i2 j2 => (cube.indices j2 + i2 * 24) % 2 ^ 32)
    m a i j hi hj

theorem buildOcclusionData_get
    (getOcclusions : Vector3 → OtS_VoxelMesh_Neighbourhood → ℕ → ℚ)
    (nbh : OtS_VoxelMesh_Neighbourhood) (voxels : List OtS_Voxel) (startIdx : ℕ)
    (m : ℕ) (a : ℕ → ℚ) (i j : ℕ) (hi : i < m) (hj : j < 96) :
    buildOcclusionData getOcclusions nbh voxels startIdx m a (i * 96 + j)
      = getOcclusions (voxelAt voxels (i + startIdx)).position nbh j := by
  unfold buildOcclusionData
  simp only [AppConstants.OCCLUSION]
  exact foldl_writeRow_get 96
    (fun i2 j2 => getOcclusions (voxelAt voxels (i2 + startIdx)).position nbh j2)
    m a i j hi hj

theorem buildNormalData_get (cube : AttributeData) (count : ℕ) (a : ℕ → ℚ) (i j : ℕ)
    (hi : i < count) (hj : j < 72) :
    buildNormalData cube count a (i * 72 + j) = cube.normal j := by
  unfold buildNormalData
  have h1 : (i + 1) * 72 ≤ count * 72 := Nat.mul_le_mul_right 72 hi
  have h2 : (i + 1) * 72 = i * 72 + 72 := by ring
  have h3 : count * 72 = 72 * count := Nat.mul_comm _ _
  rw [repeatedFill_get_in _ _ _ _ _ (by omega) (by omega)]
  have h4 : i * 72 + j - 0 = i * 72 + j := by omega
  have h5 : (i * 72 + j) % 72 = j := by omega
  rw [h4, h5]
  exact writeRow_get_in _ _ _ _ j hj

theorem buildTexcoordData_get (cube : AttributeData) (count : ℕ) (a : ℕ → ℚ) (i j : ℕ)
    (hi : i < count) (hj : j < 48) :
    buildTexcoordData cube count a (i * 48 + j) = cube.texcoord j := by
  unfold buildTexcoordData
  have h1 : (i + 1) * 48 ≤ count * 48 := Nat.mul_le_mul_right 48 hi
  have h2 : (i + 1) * 48 = i * 48 + 48 := by ring
  have h3 : count * 48 = 48 * count := Nat.mul_comm _ _
  rw [repeatedFill_get_in _ _ _ _ _ (by omega) (by omega)]
  have h4 : i * 48 + j - 0 = i * 48 + j := by omega
  have h5 : (i * 48 + j) % 48 = j := by omega
  rw [h4, h5]
  exact writeRow_get_in _ _ _ _ j hj

theorem buildColourData_get (voxels : List OtS_Voxel) (startIdx : ℕ) :
    ∀ (m : ℕ) (a : ℕ → ℚ) (i c : ℕ), i < m → c < 96 →
      buildColourData voxels startIdx m a (i * 96 + c)
        = rgbaComp (voxelAt voxels (i + startIdx)).colour (c % 4) := by
  intro m
  induction m with
  | zero => intro a i c hi _; omega
  | succ m ih =>
    intro a i c hi hc
    unfold buildColourData
    rw [List.range_succ, List.foldl_append]
    simp only [List.foldl_cons, List.foldl_nil]
    rcases Nat.lt_succ_iff_lt_or_eq.mp hi with h | h
    · have h1 : (i + 1) * 96 ≤ m * 96 := Nat.mul_le_mul_right 96 h
      have h2 : (i + 1) * 96 = i * 96 + 96 := by ring
      rw [repeatedFill_get_out _ _ _ _ _ (by omega)]
      rw [arraySet_get_ne _ _ _ _ (by omega), arraySet_get_ne _ _ _ _ (by omega),
        arraySet_get_ne _ _ _ _ (by omega), arraySet_get_ne _ _ _ _ (by omega)]
      exact ih a i c h hc
    · subst h
      rw [repeatedFill_get_in _ _ _ _ _ (by omega) (by omega)]
      have h5 : i * 96 + c - i * 96 = c := by omega
      rw [h5]
      have h4 : c % 4 = 0 ∨ c % 4 = 1 ∨ c % 4 = 2 ∨ c % 4 = 3 := by omega
      rcases h4 with h4 | h4 | h4 | h4 <;> rw [h4]
      · rw [arraySet_get_ne _ _ _ _ (by omega), arraySet_get_ne _ _ _ _ (by omega),
          arraySet_get_ne _ _ _ _ (by omega)]
        simpa [rgbaComp] using arraySet_get_eq _ (i * 96 + 0)
          (voxelAt voxels (i + startIdx)).colour.r
      · rw [arraySet_get_ne _ _ _ _ (by omega), arraySet_get_ne _ _ _ _ (by omega)]
        simpa [rgbaComp] using arraySet_get_eq _ (i * 96 + 1)
          (voxelAt voxels (i + startIdx)).colour.g
      · rw [arraySet_get_ne _ _ _ _ (by omega)]
        simpa [rgbaComp] using arraySet_get_eq _ (i * 96 + 2)
          (voxelAt voxels (i + startIdx)).colour.b
      · simpa [rgbaComp] using arraySet_get_eq _ (i * 96 + 3)
          (voxelAt voxels (i + startIdx)).colour.a

theorem chunkResult_position_get (env : Env) (c : BuilderCore) (k : ℕ) :
    (chunkResult env c k).buffer.position.data.get
      = buildPositionData env.cube c.voxels (k * env.chunkSize)
          (min ((k + 1) * env.chunkSize) c.numTotalVoxels - k * env.chunkSize)
          (fun _ => 0) :=
  rfl

theorem chunkResult_colour_get (env : Env) (c : BuilderCore) (k : ℕ) :
    (chunkResult env c k).buffer.colour.data.get
      = buildColourData c.voxels (k * env.chunkSize)
          (min ((k + 1) * env.chunkSize) c.numTotalVoxels - k * env.chunkSize)
          (fun _ => 0) :=
  rfl

theorem chunkResult_normal_get (env : Env) (c : BuilderCore) (k : ℕ) :
    (chunkResult env c k).buffer.normal.data.get
      = buildNormalData env.cube
          (min ((k + 1) * env.chunkSize) c.numTotalVoxels - k * env.chunkSize)
          (fun _ => 0) :=
  rfl

theorem chunkResult_texcoord_get (env : Env) (c : BuilderCore) (k : ℕ) :
    (chunkResult env c k).buffer.texcoord.data.get
      = buildTexcoordData env.cube
          (min ((k + 1) * env.chunkSize) c.numTotalVoxels - k * env.chunkSize)
          (fun _ => 0) :=
  rfl

theorem chunkResult_indices_get (env : Env) (c : BuilderCore) (k : ℕ) :
    (chunkResult env c k).buffer.indices.data.get
      = buildIndicesData env.cube
          (min ((k + 1) * env.chunkSize) c.numTotalVoxels - k * env.chunkSize)
          (fun _ => 0) :=
  rfl

theorem chunkResult_occlusion_get_disabled (env : Env) (c : BuilderCore) (k : ℕ)
    (h : c.createAmbientOcclusionBuffer = false) :
    (chunkResult env c k).buffer.occlusion.data.get = fun _ => 1 := by
  unfold chunkResult
  rw [h]
  rfl

theorem chunkResult_occlusion_get_enabled (env : Env) (c : BuilderCore) (k : ℕ)
    (nbh : OtS_VoxelMesh_Neighbourhood) (h : c.createAmbientOcclusionBuffer = true)
    (hn : c.neighbourhood = some nbh) :
    (chunkResult env c k).buffer.occlusion.data.get
      = buildOcclusionData env.getOcclusions nbh c.voxels (k * env.chunkSize)
          (min ((k + 1) * env.chunkSize) c.numTotalVoxels - k * env.chunkSize)
          (fun _ => 1) := by
  unfold chunkResult
  rw [h, hn]
  rfl

theorem chunkResult_position_size (env : Env) (c : BuilderCore) (k : ℕ) :
    (chunkResult env c k).buffer.position.data.size
      = (min ((k + 1) * env.chunkSize) c.numTotalVoxels - k * env.chunkSize) * 72 :=
  rfl

theorem chunkResult_colour_size (env : Env) (c : BuilderCore) (k : ℕ) :
    (chunkResult env c k).buffer.colour.data.size
      = (min ((k + 1) * env.chunkSize) c.numTotalVoxels - k * env.chunkSize) * 96 :=
  rfl

theorem chunkResult_occlusion_size (env : Env) (c : BuilderCore) (k : ℕ) :
    (chunkResult env c k).buffer.occlusion.data.size
      = (min ((k + 1) * env.chunkSize) c.numTotalVoxels - k * env.chunkSize) * 96 := by
  unfold chunkResult
  cases h : c.createAmbientOcclusionBuffer
  · rfl
  · cases hn : c.neighbourhood
    · rfl
    · rfl

theorem chunkResult_texcoord_size (env : Env) (c : BuilderCore) (k : ℕ) :
    (chunkResult env c k).buffer.texcoord.data.size
      = (min ((k + 1) * env.chunkSize) c.numTotalVoxels - k * env.chunkSize) * 48 :=
  rfl

theorem chunkResult_normal_size (env : Env) (c : BuilderCore) (k : ℕ) :
    (chunkResult env c k).buffer.normal.data.size
      = (min ((k + 1) * env.chunkSize) c.numTotalVoxels - k * env.chunkSize) * 72 :=
  rfl

theorem chunkResult_indices_size (env : Env) (c : BuilderCore) (k : ℕ) :
    (chunkResult env c k).buffer.indices.data.size
      = (min ((k + 1) * env.chunkSize) c.numTotalVoxels - k * env.chunkSize) * 36 :=
  rfl

theorem chunkResult_numElements (env : Env) (c : BuilderCore) (k : ℕ) :
    (chunkResult env c k).numElements
      = (min ((k + 1) * env.chunkSize) c.numTotalVoxels - k * env.chunkSize) * 36 :=
  rfl

theorem chunkResult_more (env : Env) (c : BuilderCore) (k : ℕ) :
    (chunkResult env c k).moreVoxelsToBuffer
      = (min ((k + 1) * env.chunkSize) c.numTotalVoxels != c.numTotalVoxels) :=
  rfl

theorem chunkResult_progress (env : Env) (c : BuilderCore) (k : ℕ) :
    (chunkResult env c k).progress
      = ((k * env.chunkSize : ℕ) : ℚ) / ((c.numTotalVoxels : ℕ) : ℚ) :=
  rfl

theorem getNext_eq_some (env : Env) (b : Builder)
    (h : b.nextChunkIndex * env.chunkSize < b.core.numTotalVoxels) :
    getNext env b = some (chunkResult env b.core b.nextChunkIndex,
      { b with
        cache := fun index => if index = b.nextChunkIndex
          then some (chunkResult env b.core b.nextChunkIndex) else b.cache index,
        nextChunkIndex := b.nextChunkIndex + 1 }) := by
  simp only [getNext, fromVoxelMesh]
  rw [if_pos h]

theorem getNext_eq_none (env : Env) (b : Builder)
    (h : ¬ b.nextChunkIndex * env.chunkSize < b.core.numTotalVoxels) :
    getNext env b = none := by
  simp only [getNext, fromVoxelMesh]
  rw [if_neg h]

theorem chunkCount_mul_ge (S N : ℕ) (hS : 0 < S) : N ≤ (N + S - 1) / S * S := by
  rcases Nat.eq_zero_or_pos N with h | h
  · simp [h]
  · have hd := Nat.div_add_mod (N + S - 1) S
    have hm : (N + S - 1) % S < S := Nat.mod_lt _ hS
    have hc : (N + S - 1) / S * S = S * ((N + S - 1) / S) := Nat.mul_comm _ _
    obtain ⟨A, hA⟩ : ∃ A, S * ((N + S - 1) / S) = A := ⟨_, rfl⟩
    obtain ⟨r, hr⟩ : ∃ r, (N + S - 1) % S = r := ⟨_, rfl⟩
    rw [hA, hr] at hd
    rw [hr] at hm
    rw [hc, hA]
    omega

theorem chunkCount_lt_mul (S N k : ℕ) (hS : 0 < S) (hk : k < (N + S - 1) / S) :
    k * S < N := by
  rcases Nat.eq_zero_or_pos N with hN | hN
  · subst hN
    have h5 : (0 + S - 1) / S = 0 := Nat.div_eq_of_lt (by omega)
    rw [h5] at hk
    omega
  · have h4 : k * S + S ≤ N + S - 1 := by
      calc k * S + S = (k + 1) * S := by ring
        _ ≤ (N + S - 1) / S * S := Nat.mul_le_mul_right S hk
        _ ≤ N + S - 1 := Nat.div_mul_le_self _ _
    obtain ⟨A, hA⟩ : ∃ A, k * S = A := ⟨_, rfl⟩
    rw [hA] at h4 ⊢
    omega

theorem sum_chunk_counts (S N : ℕ) :
    ∀ m : ℕ, (((List.range m).map (fun k => min ((k + 1) * S) N - k * S)).sum)
      = min (m * S) N := by
  intro m
  induction m with
  | zero => simp
  | succ m ih =>
    rw [List.range_succ, List.map_append, List.sum_append]
    simp only [List.map_cons, List.map_nil, List.sum_cons, List.sum_nil]
    rw [ih]
    obtain ⟨A, hA⟩ : ∃ A, m * S = A := ⟨_, rfl⟩
    obtain ⟨B, hB⟩ : ∃ B, (m + 1) * S = B := ⟨_, rfl⟩
    have h1 : A ≤ B := by
      rw [← hA, ← hB]
      exact Nat.mul_le_mul_right S (by omega)
    rw [hA, hB]
    omega

theorem runN_spec (env : Env) :
    ∀ (n : ℕ) (b : Builder),
      (∀ m, m < n → (b.nextChunkIndex + m) * env.chunkSize < b.core.numTotalVoxels) →
      ∃ cs b2, runN env n b = some (cs, b2) ∧
        b2.core = b.core ∧
        b2.nextChunkIndex = b.nextChunkIndex + n ∧
        (∀ k, b2.cache k =
          if b.nextChunkIndex ≤ k ∧ k < b.nextChunkIndex + n
          then some (chunkResult env b.core k) else b.cache k) ∧
        cs = (List.range n).map (fun i => chunkResult env b.core (b.nextChunkIndex + i)) := by
  intro n
  induction n with
  | zero =>
    intro b _
    refine ⟨[], b, rfl, rfl, by omega, ?_, by simp⟩
    intro k
    rw [if_neg (by omega)]
  | succ n ih =>
    intro b hb
    have h0 : b.nextChunkIndex * env.chunkSize < b.core.numTotalVoxels := by
      have h := hb 0 (by omega)
      simpa using h
    obtain ⟨cs, b2, hrun, hcore, hnext, hcache, hcs⟩ :=
      ih { b with
            cache := fun index => if index = b.nextChunkIndex
              then some (chunkResult env b.core b.nextChunkIndex) else b.cache index,
            nextChunkIndex := b.nextChunkIndex + 1 }
        (by
          intro m hm
          show (b.nextChunkIndex + 1 + m) * env.chunkSize < b.core.numTotalVoxels
          have h2 : b.nextChunkIndex + 1 + m = b.nextChunkIndex + (m + 1) := by omega
          rw [h2]
          exact hb (m + 1) (by omega))
    refine ⟨chunkResult env b.core b.nextChunkIndex :: cs, b2, ?_, ?_, ?_, ?_, ?_⟩
    · have hg := getNext_eq_some env b h0
      simp only [runN, hg, hrun]
    · exact hcore
    · rw [hnext]
      show b.nextChunkIndex + 1 + n = b.nextChunkIndex + (n + 1)
      omega
    · intro k
      rw [hcache k]
      show (if b.nextChunkIndex + 1 ≤ k ∧ k < b.nextChunkIndex + 1 + n
            then some (chunkResult env b.core k)
            else if k = b.nextChunkIndex
              then some (chunkResult env b.core b.nextChunkIndex)
              else b.cache k)
          = if b.nextChunkIndex ≤ k ∧ k < b.nextChunkIndex + (n + 1)
            then some (chunkResult env b.core k) else b.cache k
      by_cases h1 : b.nextChunkIndex + 1 ≤ k ∧ k < b.nextChunkIndex + 1 + n
      · rw [if_pos h1, if_pos (by omega)]
      · rw [if_neg h1]
        by_cases h2 : k = b.nextChunkIndex
        · rw [if_pos h2, if_pos (by omega), h2]
        · rw [if_neg h2, if_neg (by omega)]
    · rw [hcs]
      show (chunkResult env b.core b.nextChunkIndex
          :: (List.range n).map (fun i => chunkResult env b.core (b.nextChunkIndex + 1 + i)))
        = (List.range (n + 1)).map (fun i => chunkResult env b.core (b.nextChunkIndex + i))
      rw [List.range_succ_eq_map, List.map_cons, List.map_map]
      have hfg : (fun i => chunkResult env b.core (b.nextChunkIndex + 1 + i))
          = (fun i => chunkResult env b.core (b.nextChunkIndex + i)) ∘ Nat.succ := by
        funext i
        show chunkResult env b.core (b.nextChunkIndex + 1 + i)
          = chunkResult env b.core (b.nextChunkIndex + (i + 1))
        congr 1
        omega
      rw [hfg]
      simp

theorem fromVoxelMesh_eq_some (env : Env) (c : BuilderCore) (k : ℕ)
    (h : k * env.chunkSize < c.numTotalVoxels) :
    fromVoxelMesh env c k = some (chunkResult env c k) := by
  simp only [fromVoxelMesh]
  rw [if_pos h]

theorem mkBuilder_core_numTotalVoxels (mesh : OtS_VoxelMesh) (flag : Bool) :
    (mkBuilder mesh flag).core.numTotalVoxels = mesh.getVoxelCount :=
  rfl

/-- C2: in every produced chunk (chunk index k with k·S < N), the position
buffer entry for component c (c < 72) of local voxel i equals the template
position component c plus component (c mod 3) of the world position of the
global voxel at index start + i, i.e. the canonical cube translated by the
voxel position. -/
theorem c2_position_translation (env : Env) (mesh : OtS_VoxelMesh) (flag : Bool)
    (k i c : ℕ)
    (hk : k * env.chunkSize < mesh.getVoxelCount)
    (hi : i < min ((k + 1) * env.chunkSize) mesh.getVoxelCount - k * env.chunkSize)
    (hc : c < 72) :
    fromVoxelMesh env (mkBuilder mesh flag).core k
        = some (chunkResult env (mkBuilder mesh flag).core k)
      ∧ (chunkResult env (mkBuilder mesh flag).core k).buffer.position.data.get (i * 72 + c)
        = env.cube.position c
          + (voxelAt (mkBuilder mesh flag).core.voxels
              (i + k * env.chunkSize)).position.toArray (c % 3) := by
  refine ⟨fromVoxelMesh_eq_some env _ k hk, ?_⟩
  rw [chunkResult_position_get]
  exact buildPositionData_get env.cube _ _ _ _ i c hi hc

/-- C3: in every produced chunk, the index buffer entry for component c
(c < 36) of local voxel i equals template index c plus i·24 (the Uint32
store cannot wrap for any allocatable chunk, expressed by the bound
(i+1)·24 ≤ 2^32), hence every index value of voxel i lies in the interval
[24·i, 24·i + 23]: each voxel references only its own 24-vertex block. -/
theorem c3_indices_own_block (env : Env) (mesh : OtS_VoxelMesh) (flag : Bool)
    (k i c : ℕ)
    (hk : k * env.chunkSize < mesh.getVoxelCount)
    (hi : i < min ((k + 1) * env.chunkSize) mesh.getVoxelCount - k * env.chunkSize)
    (hc : c < 36)
    (hwf : WFTemplate env.cube)
    (hover : (i + 1) * 24 ≤ 2 ^ 32) :
    fromVoxelMesh env (mkBuilder mesh flag).core k
        = some (chunkResult env (mkBuilder mesh flag).core k)
      ∧ (chunkResult env (mkBuilder mesh flag).core k).buffer.indices.data.get (i * 36 + c)
        = env.cube.indices c + i * 24
      ∧ 24 * i ≤ (chunkResult env (mkBuilder mesh flag).core k).buffer.indices.data.get (i * 36 + c)
      ∧ (chunkResult env (mkBuilder mesh flag).core k).buffer.indices.data.get (i * 36 + c)
        ≤ 24 * i + 23 := by
  have hx : env.cube.indices c < 24 := hwf c hc
  have hval : (chunkResult env (mkBuilder mesh flag).core k).buffer.indices.data.get (i * 36 + c)
      = env.cube.indices c + i * 24 := by
    rw [chunkResult_indices_get]
    simp only [mkBuilder_core_numTotalVoxels]
    rw [buildIndicesData_get env.cube _ _ i c hi hc]
    exact Nat.mod_eq_of_lt (by omega)
  exact ⟨fromVoxelMesh_eq_some env _ k hk, hval, by omega, by omega⟩

/-- C4: in every produced chunk, all 24 vertices of local voxel i carry the
RGBA colour of the global voxel at start + i (channel c mod 4 at colour
component c < 96), and the normal and texcoord buffers hold the canonical
template components replicated identically for every voxel, independent of
the voxel position and colour. -/
theorem c4_colour_normal_texcoord (env : Env) (mesh : OtS_VoxelMesh) (flag : Bool)
    (k i : ℕ)
    (hk : k * env.chunkSize < mesh.getVoxelCount)
    (hi : i < min ((k + 1) * env.chunkSize) mesh.getVoxelCount - k * env.chunkSize) :
    fromVoxelMesh env (mkBuilder mesh flag).core k
        = some (chunkResult env (mkBuilder mesh flag).core k)
      ∧ (∀ c, c < 96 →
          (chunkResult env (mkBuilder mesh flag).core k).buffer.colour.data.get (i * 96 + c)
            = rgbaComp (voxelAt (mkBuilder mesh flag).core.voxels
                (i + k * env.chunkSize)).colour (c % 4))
      ∧ (∀ c, c < 72 →
          (chunkResult env (mkBuilder mesh flag).core k).buffer.normal.data.get (i * 72 + c)
            = env.cube.normal c)
      ∧ (∀ c, c < 48 →
          (chunkResult env (mkBuilder mesh flag).core k).buffer.texcoord.data.get (i * 48 + c)
            = env.cube.texcoord c) := by
  refine ⟨fromVoxelMesh_eq_some env _ k hk, ?_, ?_, ?_⟩
  · intro c hc
    rw [chunkResult_colour_get]
    exact buildColourData_get _ _ _ _ i c hi hc
  · intro c hc
    rw [chunkResult_normal_get]
    exact buildNormalData_get env.cube _ _ i c hi hc
  · intro c hc
    rw [chunkResult_texcoord_get]
    exact buildTexcoordData_get env.cube _ _ i c hi hc

/-- C5: in every produced chunk, if occlusion buffering was disabled at
construction every occlusion component equals 1.0, and if it was enabled the
96-float occlusion block of local voxel i holds exactly the
OcclusionCalculator output for the position of the global voxel at start + i
and the neighbourhood index processed from the full mesh (non-cardinal mode)
at construction. -/
theorem c5_occlusion (env : Env) (mesh : OtS_VoxelMesh) (flag : Bool) (k : ℕ)
    (hk : k * env.chunkSize < mesh.getVoxelCount) :
    fromVoxelMesh env (mkBuilder mesh flag).core k
        = some (chunkResult env (mkBuilder mesh flag).core k)
      ∧ (flag = false → ∀ t,
          (chunkResult env (mkBuilder mesh flag).core k).buffer.occlusion.data.get t = 1)
      ∧ (flag = true → ∀ i j,
          i < min ((k + 1) * env.chunkSize) mesh.getVoxelCount - k * env.chunkSize →
          j < 96 →
          (chunkResult env (mkBuilder mesh flag).core k).buffer.occlusion.data.get (i * 96 + j)
            = env.getOcclusions
                (voxelAt (mkBuilder mesh flag).core.voxels (i + k * env.chunkSize)).position
                (OtS_VoxelMesh_Neighbourhood.process mesh ("non-cardinal")) j) := by
  refine ⟨fromVoxelMesh_eq_some env _ k hk, ?_, ?_⟩
  · intro hflag t
    subst hflag
    rw [chunkResult_occlusion_get_disabled env _ k rfl]
  · intro hflag i j hi hj
    subst hflag
    rw [chunkResult_occlusion_get_enabled env _ k
      (OtS_VoxelMesh_Neighbourhood.process mesh ("non-cardinal")) rfl rfl]
    exact buildOcclusionData_get env.getOcclusions _ _ _ _ _ i j hi hj

theorem mkBuilder_nextChunkIndex (mesh : OtS_VoxelMesh) (flag : Bool) :
    (mkBuilder mesh flag).nextChunkIndex = 0 :=
  rfl

theorem mkBuilder_cache (mesh : OtS_VoxelMesh) (flag : Bool) (k : ℕ) :
    (mkBuilder mesh flag).cache k = none :=
  rfl

/-- C7: a getNext call whose cursor satisfies cursor·S ≥ N (including the
very first call on a zero-voxel model) fails on the ASSERT and produces no
result, and the failure is atomic: the produce-next step leaves the world —
cursor, cache and snapshot — exactly as it was. -/
theorem c7_past_end_fails_atomically (env : Env) (w : World)
    (h : w.builder.core.numTotalVoxels ≤ w.builder.nextChunkIndex * env.chunkSize) :
    getNext env w.builder = none ∧ stepW env w Ev.produceNext = (w, none) := by
  have hn : getNext env w.builder = none := getNext_eq_none env _ (by omega)
  refine ⟨hn, ?_⟩
  simp only [stepW, hn]

/-- C8: after n successful getNext calls, getFromIndex returns none for every
index k ≥ n and returns exactly the cached chunk of the (k+1)-th call for
k < n (equal to the k-th entry of the list of returned chunks); getFromIndex
is a pure cache lookup and triggers no generation. -/
theorem c8_getFromIndex_cache (env : Env) (mesh : OtS_VoxelMesh) (flag : Bool) (n : ℕ)
    (hn : ∀ m, m < n → m * env.chunkSize < mesh.getVoxelCount) :
    ∃ cs b2, runN env n (mkBuilder mesh flag) = some (cs, b2)
      ∧ cs.length = n
      ∧ (∀ k, n ≤ k → getFromIndex b2 k = none)
      ∧ (∀ k, getFromIndex b2 k = cs[k]?)
      ∧ (∀ k, k < n → cs[k]? = some (chunkResult env (mkBuilder mesh flag).core k)) := by
  obtain ⟨cs, b2, hrun, hcore, hnext, hcache, hcs⟩ :=
    runN_spec env n (mkBuilder mesh flag)
      (by
        intro m hm
        show (0 + m) * env.chunkSize < mesh.getVoxelCount
        have h2 : 0 + m = m := by omega
        rw [h2]
        exact hn m hm)
  simp only [mkBuilder_nextChunkIndex, mkBuilder_cache, Nat.zero_add] at hcache hcs
  have hget : ∀ k, cs[k]?
      = if k < n then some (chunkResult env (mkBuilder mesh flag).core k) else none := by
    intro k
    rw [hcs, List.getElem?_map]
    by_cases hk : k < n
    · rw [List.getElem?_range hk, if_pos hk]
      rfl
    · rw [if_neg hk]
      have hr : (List.range n)[k]? = none := by
        rw [List.getElem?_eq_none]
        simpa using Nat.le_of_not_lt hk
      rw [hr]
      rfl
  refine ⟨cs, b2, hrun, ?_, ?_, ?_, ?_⟩
  · rw [hcs]
    simp
  · intro k hk
    show b2.cache k = none
    rw [hcache k, if_neg (by omega)]
  · intro k
    show b2.cache k = cs[k]?
    rw [hcache k, hget k]
    by_cases hk : k < n
    · rw [if_pos (by omega), if_pos hk]
    · rw [if_neg (by omega), if_neg hk]
  · intro k hk
    rw [hget k, if_pos hk]

/-- C1: for N > 0 voxels, chunk size S > 0 and k·S < N, the k-th successful
getNext call returns the cursor-k chunk, whose six buffers are sized for
exactly count = min((k+1)·S, N) − k·S voxels, whose numElements equals
36·count and equals the index-buffer length, whose progress equals
(k·S)/N, and whose moreVoxelsToBuffer flag is true iff
min((k+1)·S, N) ≠ N. -/
theorem c1_kth_chunk_shape (env : Env) (mesh : OtS_VoxelMesh) (flag : Bool) (k : ℕ)
    (hS : 0 < env.chunkSize) (hN : 0 < mesh.getVoxelCount)
    (hk : k * env.chunkSize < mesh.getVoxelCount) :
    (∃ cs b2, runN env k (mkBuilder mesh flag) = some (cs, b2)
      ∧ (getNext env b2).map Prod.fst
          = some (chunkResult env (mkBuilder mesh flag).core k))
    ∧ (chunkResult env (mkBuilder mesh flag).core k).buffer.position.data.size
        = (min ((k + 1) * env.chunkSize) mesh.getVoxelCount - k * env.chunkSize) * 72
    ∧ (chunkResult env (mkBuilder mesh flag).core k).buffer.colour.data.size
        = (min ((k + 1) * env.chunkSize) mesh.getVoxelCount - k * env.chunkSize) * 96
    ∧ (chunkResult env (mkBuilder mesh flag).core k).buffer.occlusion.data.size
        = (min ((k + 1) * env.chunkSize) mesh.getVoxelCount - k * env.chunkSize) * 96
    ∧ (chunkResult env (mkBuilder mesh flag).core k).buffer.texcoord.data.size
        = (min ((k + 1) * env.chunkSize) mesh.getVoxelCount - k * env.chunkSize) * 48
    ∧ (chunkResult env (mkBuilder mesh flag).core k).buffer.normal.data.size
        = (min ((k + 1) * env.chunkSize) mesh.getVoxelCount - k * env.chunkSize) * 72
    ∧ (chunkResult env (mkBuilder mesh flag).core k).buffer.indices.data.size
        = (min ((k + 1) * env.chunkSize) mesh.getVoxelCount - k * env.chunkSize) * 36
    ∧ (chunkResult env (mkBuilder mesh flag).core k).numElements
        = 36 * (min ((k + 1) * env.chunkSize) mesh.getVoxelCount - k * env.chunkSize)
    ∧ (chunkResult env (mkBuilder mesh flag).core k).numElements
        = (chunkResult env (mkBuilder mesh flag).core k).buffer.indices.data.size
    ∧ (chunkResult env (mkBuilder mesh flag).core k).progress
        = ((k * env.chunkSize : ℕ) : ℚ) / ((mesh.getVoxelCount : ℕ) : ℚ)
    ∧ ((chunkResult env (mkBuilder mesh flag).core k).moreVoxelsToBuffer = true
        ↔ min ((k + 1) * env.chunkSize) mesh.getVoxelCount ≠ mesh.getVoxelCount) := by
  refine ⟨?_, chunkResult_position_size env _ k, chunkResult_colour_size env _ k,
    chunkResult_occlusion_size env _ k, chunkResult_texcoord_size env _ k,
    chunkResult_normal_size env _ k, chunkResult_indices_size env _ k,
    (chunkResult_numElements env _ k).trans (Nat.mul_comm _ _), rfl,
    chunkResult_progress env _ k, ?_⟩
  · obtain ⟨cs, b2, hrun, hcore, hnext, hcache, hcs⟩ :=
      runN_spec env k (mkBuilder mesh flag)
        (by
          intro m hm
          show (0 + m) * env.chunkSize < mesh.getVoxelCount
          have h2 : 0 + m = m := by omega
          rw [h2]
          have h1 : m * env.chunkSize ≤ k * env.chunkSize :=
            Nat.mul_le_mul_right _ (le_of_lt hm)
          omega)
    simp only [mkBuilder_nextChunkIndex, Nat.zero_add] at hnext
    have hlt : b2.nextChunkIndex * env.chunkSize < b2.core.numTotalVoxels := by
      rw [hnext, hcore]
      exact hk
    refine ⟨cs, b2, hrun, ?_⟩
    rw [getNext_eq_some env b2 hlt]
    show some (chunkResult env b2.core b2.nextChunkIndex)
      = some (chunkResult env (mkBuilder mesh flag).core k)
    rw [hcore, hnext]
  · rw [chunkResult_more]
    exact bne_iff_ne

/-- C6: for S > 0 and N > 0, produce-next succeeds exactly ceil(N/S) times:
the run of ceil(N/S) calls succeeds, the call after it fails, every chunk
before the last reports moreVoxelsToBuffer true and the last reports false,
the per-chunk voxel counts sum to N, and progress is strictly increasing
across successive calls. -/
theorem c6_chunk_count_sum_progress (env : Env) (mesh : OtS_VoxelMesh) (flag : Bool)
    (hS : 0 < env.chunkSize) (hN : 0 < mesh.getVoxelCount) :
    ∃ cs b2,
      runN env ((mesh.getVoxelCount + env.chunkSize - 1) / env.chunkSize)
          (mkBuilder mesh flag) = some (cs, b2)
      ∧ cs.length = (mesh.getVoxelCount + env.chunkSize - 1) / env.chunkSize
      ∧ getNext env b2 = none
      ∧ (cs.map (fun ch => ch.numElements / 36)).sum = mesh.getVoxelCount
      ∧ cs.Pairwise (fun c1 c2 => c1.progress < c2.progress)
      ∧ (∀ j ch, j + 1 < cs.length → cs[j]? = some ch → ch.moreVoxelsToBuffer = true)
      ∧ (∀ ch, cs[cs.length - 1]? = some ch → ch.moreVoxelsToBuffer = false) := by
  obtain ⟨CC, hCC⟩ : ∃ CC, (mesh.getVoxelCount + env.chunkSize - 1) / env.chunkSize = CC :=
    ⟨_, rfl⟩
  rw [hCC]
  have hge : mesh.getVoxelCount ≤ CC * env.chunkSize := by
    rw [← hCC]
    exact chunkCount_mul_ge env.chunkSize mesh.getVoxelCount hS
  have hlt : ∀ m, m < CC → m * env.chunkSize < mesh.getVoxelCount := by
    intro m hm
    apply chunkCount_lt_mul env.chunkSize mesh.getVoxelCount m hS
    rw [hCC]
    exact hm
  obtain ⟨cs, b2, hrun, hcore, hnext, hcache, hcs⟩ :=
    runN_spec env CC (mkBuilder mesh flag)
      (by
        intro m hm
        show (0 + m) * env.chunkSize < mesh.getVoxelCount
        have h2 : 0 + m = m := by omega
        rw [h2]
        exact hlt m hm)
  simp only [mkBuilder_nextChunkIndex, Nat.zero_add] at hnext hcs
  have hlen : cs.length = CC := by
    rw [hcs]
    simp
  refine ⟨cs, b2, hrun, hlen, ?_, ?_, ?_, ?_, ?_⟩
  · apply getNext_eq_none
    rw [hnext, hcore]
    show ¬ CC * env.chunkSize < (mkBuilder mesh flag).core.numTotalVoxels
    rw [mkBuilder_core_numTotalVoxels]
    omega
  · rw [hcs, List.map_map]
    have hcomp : ((fun ch => ch.numElements / 36)
          ∘ fun i => chunkResult env (mkBuilder mesh flag).core i)
        = fun i => min ((i + 1) * env.chunkSize) mesh.getVoxelCount - i * env.chunkSize := by
      funext i
      show (chunkResult env (mkBuilder mesh flag).core i).numElements / 36
        = min ((i + 1) * env.chunkSize) mesh.getVoxelCount - i * env.chunkSize
      rw [chunkResult_numElements, mkBuilder_core_numTotalVoxels]
      omega
    rw [hcomp, sum_chunk_counts]
    omega
  · rw [hcs]
    have hNq : (0 : ℚ) < ((mesh.getVoxelCount : ℕ) : ℚ) := by
      exact_mod_cast hN
    refine List.Pairwise.map _ ?_ (List.pairwise_lt_range CC)
    intro a b hab
    show (chunkResult env (mkBuilder mesh flag).core a).progress
      < (chunkResult env (mkBuilder mesh flag).core b).progress
    rw [chunkResult_progress, chunkResult_progress, mkBuilder_core_numTotalVoxels]
    rw [div_lt_div_iff hNq hNq]
    have hmul : a * env.chunkSize < b * env.chunkSize :=
      mul_lt_mul_of_pos_right hab hS
    exact mul_lt_mul_of_pos_right (by exact_mod_cast hmul) hNq
  · intro j ch hj hch
    rw [hlen] at hj
    rw [hcs, List.getElem?_map, List.getElem?_range (by omega : j < CC)] at hch
    simp only [Option.map_some'] at hch
    have hch2 : chunkResult env (mkBuilder mesh flag).core j = ch := Option.some.inj hch
    rw [← hch2, chunkResult_more, mkBuilder_core_numTotalVoxels]
    have hj1 : (j + 1) * env.chunkSize < mesh.getVoxelCount := hlt (j + 1) (by omega)
    simp only [bne_iff_ne]
    omega
  · intro ch hch
    rcases Nat.eq_zero_or_pos CC with h0 | h0
    · exfalso
      rw [h0] at hge
      omega
    · rw [hlen] at hch
      rw [hcs, List.getElem?_map, List.getElem?_range (by omega : CC - 1 < CC)] at hch
      simp only [Option.map_some'] at hch
      have hch2 : chunkResult env (mkBuilder mesh flag).core (CC - 1) = ch :=
        Option.some.inj hch
      rw [← hch2, chunkResult_more, mkBuilder_core_numTotalVoxels]
      have h1 : CC - 1 + 1 = CC := by omega
      rw [h1]
      have h2 : min (CC * env.chunkSize) mesh.getVoxelCount = mesh.getVoxelCount :=
        min_eq_right hge
      rw [h2]
      exact bne_self_eq_false _

theorem runW_cons (env : Env) (w : World) (e : Ev) (es : List Ev) :
    runW env w (e :: es)
      = ((runW env (stepW env w e).1 es).1,
        (stepW env w e).2 :: (runW env (stepW env w e).1 es).2) :=
  rfl

theorem stepW_produce_none (env : Env) (w : World) (h : getNext env w.builder = none) :
    stepW env w Ev.produceNext = (w, none) := by
  simp only [stepW, h]

theorem stepW_produce_some (env : Env) (w : World) (ch : TBuffer_VoxelMesh) (b2 : Builder)
    (h : getNext env w.builder = some (ch, b2)) :
    stepW env w Ev.produceNext = ({ w with builder := b2 }, some ch) := by
  simp only [stepW, h]

theorem stepW_mutate (env : Env) (w : World) (m : OtS_VoxelMesh) :
    stepW env w (Ev.mutateMesh m) = ({ w with mesh := m }, none) :=
  rfl

theorem filterMap_id_cons_none (l : List (Option TBuffer_VoxelMesh)) :
    (none :: l).filterMap id = l.filterMap id :=
  rfl

theorem filterMap_id_cons_some (x : TBuffer_VoxelMesh) (l : List (Option TBuffer_VoxelMesh)) :
    (some x :: l).filterMap id = x :: l.filterMap id :=
  rfl

/-- C9: the builder depends on the source mesh only through the snapshot
taken at construction, and the chunk-size configuration is a constant of the
environment: over any event interleaving, mutating the live source mesh
neither changes the produced chunks nor the final builder state - the run
is equivalent to the run with every mutation event erased and with any other
live mesh. -/
theorem c9_snapshot_isolation (env : Env) (b : Builder) (m0 m1 : OtS_VoxelMesh)
    (es : List Ev) :
    producedChunks env { mesh := m0, builder := b } es
        = producedChunks env { mesh := m1, builder := b } (es.filter Ev.isProduceNext)
      ∧ (runW env { mesh := m0, builder := b } es).1.builder
        = (runW env { mesh := m1, builder := b } (es.filter Ev.isProduceNext)).1.builder := by
  induction es generalizing b m0 m1 with
  | nil => exact ⟨rfl, rfl⟩
  | cons e es ih =>
    cases e with
    | produceNext =>
      have hf : (Ev.produceNext :: es).filter Ev.isProduceNext
          = Ev.produceNext :: es.filter Ev.isProduceNext := by
        simp [List.filter_cons, Ev.isProduceNext]
      rw [hf]
      cases hg : getNext env b with
      | none =>
        have hs0 : stepW env { mesh := m0, builder := b } Ev.produceNext
            = ({ mesh := m0, builder := b }, none) := stepW_produce_none env _ hg
        have hs1 : stepW env { mesh := m1, builder := b } Ev.produceNext
            = ({ mesh := m1, builder := b }, none) := stepW_produce_none env _ hg
        constructor
        · simp only [producedChunks]
          rw [runW_cons, runW_cons, hs0, hs1]
          dsimp only
          rw [filterMap_id_cons_none, filterMap_id_cons_none]
          exact (ih b m0 m1).1
        · rw [runW_cons, runW_cons, hs0, hs1]
          exact (ih b m0 m1).2
      | some p =>
        obtain ⟨ch, b2⟩ := p
        have hs0 : stepW env { mesh := m0, builder := b } Ev.produceNext
            = ({ mesh := m0, builder := b2 }, some ch) := stepW_produce_some env _ ch b2 hg
        have hs1 : stepW env { mesh := m1, builder := b } Ev.produceNext
            = ({ mesh := m1, builder := b2 }, some ch) := stepW_produce_some env _ ch b2 hg
        constructor
        · simp only [producedChunks]
          rw [runW_cons, runW_cons, hs0, hs1]
          dsimp only
          rw [filterMap_id_cons_some, filterMap_id_cons_some]
          exact congrArg (List.cons ch) (ih b2 m0 m1).1
        · rw [runW_cons, runW_cons, hs0, hs1]
          exact (ih b2 m0 m1).2
    | mutateMesh m =>
      have hf : (Ev.mutateMesh m :: es).filter Ev.isProduceNext
          = es.filter Ev.isProduceNext := by
        simp [List.filter_cons, Ev.isProduceNext]
      rw [hf]
      constructor
      · simp only [producedChunks]
        rw [runW_cons, stepW_mutate]
        dsimp only
        rw [filterMap_id_cons_none]
        exact (ih b m m1).1
      · rw [runW_cons, stepW_mutate]
        exact (ih b m m1).2

theorem c1_witness :
    (0 < envT.chunkSize ∧ 0 < meshT.getVoxelCount
      ∧ 1 * envT.chunkSize < meshT.getVoxelCount)
    ∧ (chunkResult envT (mkBuilder meshT true).core 1).progress
        = ((1 * envT.chunkSize : ℕ) : ℚ) / ((meshT.getVoxelCount : ℕ) : ℚ)
    ∧ ((chunkResult envT (mkBuilder meshT true).core 1).moreVoxelsToBuffer = true
        ↔ min ((1 + 1) * envT.chunkSize) meshT.getVoxelCount ≠ meshT.getVoxelCount) :=
  ⟨⟨by decide, by decide, by decide⟩,
    (c1_kth_chunk_shape envT meshT true 1 (by decide) (by decide)
      (by decide)).2.2.2.2.2.2.2.2.2.1,
    (c1_kth_chunk_shape envT meshT true 1 (by decide) (by decide)
      (by decide)).2.2.2.2.2.2.2.2.2.2⟩

theorem c2_witness :
    (1 * envT.chunkSize < meshT.getVoxelCount
      ∧ 0 < min ((1 + 1) * envT.chunkSize) meshT.getVoxelCount - 1 * envT.chunkSize
      ∧ 5 < 72)
    ∧ (chunkResult envT (mkBuilder meshT true).core 1).buffer.position.data.get (0 * 72 + 5)
        = envT.cube.position 5
          + (voxelAt (mkBuilder meshT true).core.voxels
              (0 + 1 * envT.chunkSize)).position.toArray (5 % 3) :=
  ⟨⟨by decide, by decide, by decide⟩,
    (c2_position_translation envT meshT true 1 0 5 (by decide) (by decide) (by decide)).2⟩

theorem c3_witness :
    (0 * envT.chunkSize < meshT.getVoxelCount
      ∧ 0 < min ((0 + 1) * envT.chunkSize) meshT.getVoxelCount - 0 * envT.chunkSize
      ∧ 1 < 36 ∧ WFTemplate envT.cube ∧ (0 + 1) * 24 ≤ 2 ^ 32)
    ∧ (chunkResult envT (mkBuilder meshT true).core 0).buffer.indices.data.get (0 * 36 + 1)
        = envT.cube.indices 1 + 0 * 24 :=
  ⟨⟨by decide, by decide, by decide, by unfold WFTemplate; decide, by decide⟩,
    (c3_indices_own_block envT meshT true 0 0 1 (by decide) (by decide) (by decide)
      (by unfold WFTemplate; decide) (by decide)).2.1⟩

theorem c4_witness :
    (0 * envT.chunkSize < meshT.getVoxelCount
      ∧ 1 < min ((0 + 1) * envT.chunkSize) meshT.getVoxelCount - 0 * envT.chunkSize)
    ∧ (chunkResult envT (mkBuilder meshT true).core 0).buffer.colour.data.get (1 * 96 + 7)
        = rgbaComp (voxelAt (mkBuilder meshT true).core.voxels
            (1 + 0 * envT.chunkSize)).colour (7 % 4)
    ∧ (chunkResult envT (mkBuilder meshT true).core 0).buffer.normal.data.get (1 * 72 + 3)
        = envT.cube.normal 3 :=
  ⟨⟨by decide, by decide⟩,
    (c4_colour_normal_texcoord envT meshT true 0 1 (by decide) (by decide)).2.1 7 (by decide),
    (c4_colour_normal_texcoord envT meshT true 0 1 (by decide) (by decide)).2.2.1 3 (by decide)⟩

theorem c5_witness :
    (0 * envT.chunkSize < meshT.getVoxelCount)
    ∧ (chunkResult envT (mkBuilder meshT true).core 0).buffer.occlusion.data.get (1 * 96 + 10)
        = envT.getOcclusions
            (voxelAt (mkBuilder meshT true).core.voxels (1 + 0 * envT.chunkSize)).position
            (OtS_VoxelMesh_Neighbourhood.process meshT ("non-cardinal")) 10 :=
  ⟨by decide,
    (c5_occlusion envT meshT true 0 (by decide)).2.2 rfl 1 10 (by decide) (by decide)⟩

theorem c6_witness :
    (0 < envT.chunkSize ∧ 0 < meshT.getVoxelCount)
    ∧ ∃ cs b2, runN envT 2 (mkBuilder meshT false) = some (cs, b2)
      ∧ getNext envT b2 = none
      ∧ (cs.map (fun ch => ch.numElements / 36)).sum = meshT.getVoxelCount := by
  refine ⟨⟨by decide, by decide⟩, ?_⟩
  obtain ⟨cs, b2, h1, h2, h3, h4, h5, h6, h7⟩ :=
    c6_chunk_count_sum_progress envT meshT false (by decide) (by decide)
  exact ⟨cs, b2, h1, h3, h4⟩

theorem c7_witness :
    (mkBuilder meshEmpty false).core.numTotalVoxels
        ≤ (mkBuilder meshEmpty false).nextChunkIndex * envT.chunkSize
    ∧ getNext envT (mkBuilder meshEmpty false) = none :=
  ⟨by decide,
    (c7_past_end_fails_atomically envT
      ⟨meshEmpty, mkBuilder meshEmpty false⟩ (by decide)).1⟩

theorem c8_witness :
    (∀ m, m < 2 → m * envT.chunkSize < meshT.getVoxelCount)
    ∧ ∃ cs b2, runN envT 2 (mkBuilder meshT false) = some (cs, b2)
      ∧ getFromIndex b2 5 = none
      ∧ ∀ k, getFromIndex b2 k = cs[k]? := by
  refine ⟨by decide, ?_⟩
  obtain ⟨cs, b2, h1, h2, h3, h4, h5⟩ := c8_getFromIndex_cache envT meshT false 2 (by decide)
  exact ⟨cs, b2, h1, h3 5 (by omega), h4⟩

theorem typedArraySet_fits {α : Type} (target : ModArray α) (src : ℕ → α)
    (offset len : ℕ) (h : offset + len ≤ target.size) :
    typedArraySet target src offset len
      = some { target with get := writeRow target.get offset len src } := by
  simp only [typedArraySet]
  rw [if_pos h]

theorem typedArraySet_overflow {α : Type} (target : ModArray α) (src : ℕ → α)
    (offset len : ℕ) (h : ¬ offset + len ≤ target.size) :
    typedArraySet target src offset len = none := by
  simp only [typedArraySet]
  rw [if_neg h]

theorem fromVoxelMeshE_eq (env : Env) (c : BuilderCore) (k : ℕ)
    (hS : 0 < env.chunkSize) :
    fromVoxelMeshE env c k = fromVoxelMesh env c k := by
  simp only [fromVoxelMeshE, fromVoxelMesh]
  by_cases hk : k * env.chunkSize < c.numTotalVoxels
  · rw [if_pos hk, if_pos hk]
    have hcnt : 0 < min ((k + 1) * env.chunkSize) c.numTotalVoxels - k * env.chunkSize := by
      obtain ⟨A, hA⟩ : ∃ A, k * env.chunkSize = A := ⟨_, rfl⟩
      obtain ⟨B, hB⟩ : ∃ B, (k + 1) * env.chunkSize = B := ⟨_, rfl⟩
      have h1 : A + env.chunkSize = B := by
        rw [← hA, ← hB]
        ring
      rw [hA] at hk
      rw [hA, hB]
      omega
    obtain ⟨C, hC⟩ : ∃ C,
        min ((k + 1) * env.chunkSize) c.numTotalVoxels - k * env.chunkSize = C := ⟨_, rfl⟩
    rw [hC] at hcnt
    rw [hC]
    have h72 : 0 + 72 ≤ (createVoxelMeshBuffer C).normal.data.size := by
      show 0 + 72 ≤ C * AppConstants.NORMAL
      have h2 : 1 * AppConstants.NORMAL ≤ C * AppConstants.NORMAL :=
        Nat.mul_le_mul_right _ hcnt
      simpa [AppConstants.NORMAL] using h2
    have h48 : 0 + 48 ≤ (createVoxelMeshBuffer C).texcoord.data.size := by
      show 0 + 48 ≤ C * AppConstants.TEXCOORD
      have h2 : 1 * AppConstants.TEXCOORD ≤ C * AppConstants.TEXCOORD :=
        Nat.mul_le_mul_right _ hcnt
      simpa [AppConstants.TEXCOORD] using h2
    rw [typedArraySet_fits _ _ _ _ h72, typedArraySet_fits _ _ _ _ h48]
  · rw [if_neg hk, if_neg hk]

theorem fromVoxelMeshE_zero_count (env : Env) (c : BuilderCore) (k : ℕ)
    (hk : k * env.chunkSize < c.numTotalVoxels)
    (hcnt : min ((k + 1) * env.chunkSize) c.numTotalVoxels - k * env.chunkSize = 0) :
    fromVoxelMeshE env c k = none := by
  simp only [fromVoxelMeshE]
  rw [if_pos hk]
  have hno : typedArraySet
      (createVoxelMeshBuffer
        (min ((k + 1) * env.chunkSize) c.numTotalVoxels - k * env.chunkSize)).normal.data
      env.cube.normal 0 72 = none := by
    apply typedArraySet_overflow
    show ¬ 0 + 72 ≤ (min ((k + 1) * env.chunkSize) c.numTotalVoxels - k * env.chunkSize)
      * AppConstants.NORMAL
    rw [hcnt]
    norm_num [AppConstants.NORMAL]
  rw [hno]

theorem getNextE_eq (env : Env) (b : Builder) (hS : 0 < env.chunkSize) :
    getNextE env b = getNext env b := by
  simp only [getNextE, getNext, fromVoxelMeshE_eq env b.core b.nextChunkIndex hS]

/-- C10 counterexample: with the configured chunk size zero and a one-voxel
model, construction is not rejected: the builder comes out in the normal
initial state (cursor 0, count recorded, empty cache) — the constructor
never reads the chunk size — and the failure the program does exhibit
happens only inside the first produce-next call, whose body throws (none)
when the 72-entry normal template is copied into the zero-length normal
buffer, so the call returns no chunk. -/
theorem c10_counterexample :
    (mkBuilder meshOne false).nextChunkIndex = 0
    ∧ (mkBuilder meshOne false).core.numTotalVoxels = 1
    ∧ getFromIndex (mkBuilder meshOne false) 0 = none
    ∧ fromVoxelMeshE envZero (mkBuilder meshOne false).core 0 = none
    ∧ getNextE envZero (mkBuilder meshOne false) = none :=
  ⟨rfl, rfl, rfl, rfl, rfl⟩

/-- C10 amended: a zero voxels-per-chunk configuration value is not rejected
at construction: the constructor performs no validation and never reads the
chunk size, completing normally (cursor 0, empty cache, voxels
snapshotted).  With S = 0 and N > 0 the failure surfaces only inside the
first produce-next call: the chunk body throws a RangeError at the
normal-template TypedArray set into the zero-length buffer — before any
cache insert or cursor increment — so the call yields no chunk; the value
is never clamped. -/
theorem c10_amended_failure_in_produce_next (env : Env) (mesh : OtS_VoxelMesh)
    (flag : Bool) (hS : env.chunkSize = 0) (hN : 0 < mesh.getVoxelCount) :
    (mkBuilder mesh flag).nextChunkIndex = 0
    ∧ (∀ k, getFromIndex (mkBuilder mesh flag) k = none)
    ∧ (mkBuilder mesh flag).core.voxels = mesh.getVoxels
    ∧ fromVoxelMeshE env (mkBuilder mesh flag).core 0 = none
    ∧ getNextE env (mkBuilder mesh flag) = none := by
  have hk : 0 * env.chunkSize < (mkBuilder mesh flag).core.numTotalVoxels := by
    show 0 * env.chunkSize < mesh.getVoxelCount
    simpa using hN
  have hcnt : min ((0 + 1) * env.chunkSize) (mkBuilder mesh flag).core.numTotalVoxels
      - 0 * env.chunkSize = 0 := by
    rw [hS]
    simp
  have hnone : fromVoxelMeshE env (mkBuilder mesh flag).core 0 = none :=
    fromVoxelMeshE_zero_count env _ 0 hk hcnt
  refine ⟨rfl, fun k => rfl, rfl, hnone, ?_⟩
  simp only [getNextE]
  rw [mkBuilder_nextChunkIndex, hnone]

theorem c10_amended_witness :
    (envZero.chunkSize = 0 ∧ 0 < meshOne.getVoxelCount)
    ∧ fromVoxelMeshE envZero (mkBuilder meshOne false).core 0 = none
    ∧ getNextE envZero (mkBuilder meshOne false) = none :=
  ⟨⟨rfl, by decide⟩,
    (c10_amended_failure_in_produce_next envZero meshOne false rfl (by decide)).2.2.2.1,
    (c10_amended_failure_in_produce_next envZero meshOne false rfl (by decide)).2.2.2.2⟩

end OtS
